import Mathlib

/-!
Verification of the elytra-ping wire-protocol layer.

Bytes are modelled as natural numbers below 256, buffers as `List Nat`, and a
cursor as the list of bytes remaining after the current position (readers
return the number of bytes they consumed).  Machine integers are `Nat`/`Int`
with explicit reductions modulo powers of two.  Fallible Rust code is
modelled with `Except`/`Option`, and outcome types carry an explicit `panic`
constructor wherever the Rust code can panic (out-of-range slice indexing,
`bytes::Buf` getters on a short cursor, `BytesMut::advance` past the end,
`unwrap` on a failed conversion).
-/

set_option maxRecDepth 8192

/-- Error kinds of the variable-length integer reader. -/
inductive VarIntError
  | eof
  | invalidData
deriving DecidableEq

/-- Modelled from the spec: the loop of the external mc-varint crate's
read_var_int (the crate is a dependency, not part of this repository).  Each
byte contributes its low 7 bits, least significant group first; a high bit
set means continuation; at most 5 bytes; the accumulated value wraps at 32
bits.  Returns the unsigned accumulator and the number of bytes consumed. -/
def readVarIntCore : List Nat → Nat → Nat → Nat → Except VarIntError (Nat × Nat)
  | _, _, _, 0 => .error .invalidData
  | [], _, _, _ + 1 => .error .eof
  | b :: bs, acc, shift, fuel + 1 =>
    if b < 128 then .ok ((acc + b % 128 * 2 ^ shift) % 2 ^ 32, 1)
    else
      match readVarIntCore bs (acc + b % 128 * 2 ^ shift) (shift + 7) fuel with
      | .ok (v, c) => .ok (v, c + 1)
      | .error e => .error e

/-- Modelled from the spec: the external mc-varint crate's read_var_int,
reading from the bytes remaining after the cursor and returning the decoded
i32 (two's-complement view of the 32-bit accumulator) together with the
number of bytes consumed. -/
def read_var_int (bytes : List Nat) : Except VarIntError (Int × Nat) :=
  match readVarIntCore bytes 0 0 5 with
  | .ok (u, c) => .ok (if u < 2 ^ 31 then (u : Int) else (u : Int) - 2 ^ 32, c)
  | .error e => .error e

/-- Emission loop of the VarInt writer: 7-bit groups, least significant
first, high bit set on every byte but the last. -/
def writeVarIntCore : Nat → Nat → List Nat
  | _, 0 => []
  | u, fuel + 1 => if u < 128 then [u] else (u % 128 + 128) :: writeVarIntCore (u / 128) fuel

/-- Modelled from the spec: the external mc-varint crate's write_var_int for
a non-negative value (all lengths and ids written by this repository). -/
def write_var_int_nat (u : Nat) : List Nat :=
  writeVarIntCore u 5

/-- Modelled from the spec: VarInt encoding of an i32 via its unsigned
32-bit two's-complement form. -/
def write_var_int (v : Int) : List Nat :=
  writeVarIntCore (v % 2 ^ 32).toNat 5

/-- A UTF-8 continuation byte. -/
def isUtf8Cont (b : Nat) : Bool :=
  decide (128 ≤ b) && decide (b ≤ 191)

/-- UTF-8 validity of a byte sequence, following Rust's str::from_utf8
(core::str run_utf8_validation): overlong forms, surrogates and code points
above U+10FFFF are rejected. -/
def utf8Valid : List Nat → Bool
  | [] => true
  | b :: bs =>
    if b ≤ 127 then utf8Valid bs
    else if b < 194 then false
    else if b ≤ 223 then
      match bs with
      | b2 :: bs2 => isUtf8Cont b2 && utf8Valid bs2
      | [] => false
    else if b ≤ 239 then
      match bs with
      | b2 :: b3 :: bs3 =>
        (if b = 224 then decide (160 ≤ b2) && decide (b2 ≤ 191)
         else if b = 237 then decide (128 ≤ b2) && decide (b2 ≤ 159)
         else isUtf8Cont b2) && isUtf8Cont b3 && utf8Valid bs3
      | _ => false
    else if b ≤ 244 then
      match bs with
      | b2 :: b3 :: b4 :: bs4 =>
        (if b = 240 then decide (144 ≤ b2) && decide (b2 ≤ 191)
         else if b = 244 then decide (128 ≤ b2) && decide (b2 ≤ 143)
         else isUtf8Cont b2) && isUtf8Cont b3 && isUtf8Cont b4 && utf8Valid bs4
      | _ => false
    else false

/-- McStringError from src/mc_string.rs. -/
inductive McStringError
  | io
  | tooLong (length : Nat)
  | invalidFormat
deriving DecidableEq

/-- Result of decode_mc_string: the decoded string's bytes together with the
cursor advance, an error, or a panic. -/
inductive McStringOutcome
  | ok (s : List Nat) (consumed : Nat)
  | err (e : McStringError)
  | panic
deriving DecidableEq

/-- encode_mc_string (src/mc_string.rs lines 27-40): the byte length as a
VarInt followed by the raw bytes; TooLong when the length does not fit a
non-negative i32. -/
def encode_mc_string (s : List Nat) : Except McStringError (List Nat) :=
  if s.length ≤ 2 ^ 31 - 1 then .ok (write_var_int_nat s.length ++ s)
  else .error (.tooLong s.length)

/-- decode_mc_string (src/mc_string.rs lines 42-55), acting on the bytes
remaining after the cursor.  A negative decoded length is InvalidFormat; the
slice expression bytes[..len] panics when fewer than len bytes remain;
invalid UTF-8 is InvalidFormat; on success the cursor advances past the
length prefix plus the string bytes. -/
def decode_mc_string (bytes : List Nat) : McStringOutcome :=
  match read_var_int bytes with
  | .error _ => .err .io
  | .ok (len, c) =>
    if len < 0 then .err .invalidFormat
    else
      let n := len.toNat
      let chunk := bytes.drop c
      if chunk.length < n then .panic
      else if utf8Valid (chunk.take n) then .ok (chunk.take n) (c + n)
      else .err .invalidFormat

theorem writeVarIntCore_succ (u f : Nat) :
    writeVarIntCore u (f + 1)
      = if u < 128 then [u] else (u % 128 + 128) :: writeVarIntCore (u / 128) f := rfl

theorem readVarIntCore_cons (b : Nat) (bs : List Nat) (acc shift f : Nat) :
    readVarIntCore (b :: bs) acc shift (f + 1)
      = if b < 128 then .ok ((acc + b % 128 * 2 ^ shift) % 2 ^ 32, 1)
        else
          match readVarIntCore bs (acc + b % 128 * 2 ^ shift) (shift + 7) f with
          | .ok (v, c) => .ok (v, c + 1)
          | .error e => .error e := rfl

theorem writeVarIntCore_length_le (fuel : Nat) :
    ∀ u, (writeVarIntCore u fuel).length ≤ fuel := by
  induction fuel with
  | zero => intro u; simp [writeVarIntCore]
  | succ f ih =>
    intro u
    rw [writeVarIntCore_succ]
    by_cases h : u < 128
    · simp [h]
    · simp only [if_neg h, List.length_cons]
      exact Nat.succ_le_succ (ih (u / 128))

theorem readVarIntCore_roundtrip (f : Nat) :
    ∀ u, u < 128 ^ (f + 1) → ∀ acc shift rest,
      readVarIntCore (writeVarIntCore u (f + 1) ++ rest) acc shift (f + 1)
        = .ok ((acc + u * 2 ^ shift) % 2 ^ 32, (writeVarIntCore u (f + 1)).length) := by
  induction f with
  | zero =>
    intro u hu acc shift rest
    have h : u < 128 := by simpa using hu
    rw [writeVarIntCore_succ, if_pos h, List.cons_append, readVarIntCore_cons, if_pos h,
      Nat.mod_eq_of_lt h]
    rfl
  | succ f ih =>
    intro u hu acc shift rest
    by_cases h : u < 128
    · rw [writeVarIntCore_succ, if_pos h, List.cons_append, readVarIntCore_cons, if_pos h,
        Nat.mod_eq_of_lt h]
      rfl
    · have hdiv : u / 128 < 128 ^ (f + 1) := by
        rw [Nat.div_lt_iff_lt_mul (by norm_num : 0 < 128)]
        calc u < 128 ^ (f + 1 + 1) := hu
          _ = 128 ^ (f + 1) * 128 := by ring
      have hmod : (u % 128 + 128) % 128 = u % 128 := by omega
      have hval : acc + u % 128 * 2 ^ shift + u / 128 * 2 ^ (shift + 7)
          = acc + u * 2 ^ shift := by
        have h128 : u % 128 + 128 * (u / 128) = u := Nat.mod_add_div u 128
        have : u % 128 * 2 ^ shift + u / 128 * 2 ^ (shift + 7) = u * 2 ^ shift := by
          rw [pow_add]
          calc u % 128 * 2 ^ shift + u / 128 * (2 ^ shift * 2 ^ 7)
              = (u % 128 + 128 * (u / 128)) * 2 ^ shift := by ring
            _ = u * 2 ^ shift := by rw [h128]
        omega
      have hrec := ih (u / 128) hdiv (acc + u % 128 * 2 ^ shift) (shift + 7) rest
      have hb : ¬ (u % 128 + 128 < 128) := by omega
      rw [writeVarIntCore_succ u (f + 1), if_neg h, List.cons_append, readVarIntCore_cons,
        if_neg hb, hmod, hrec, hval]
      simp

theorem read_var_int_of_write (n : Nat) (hn : n < 2 ^ 31) (rest : List Nat) :
    read_var_int (write_var_int_nat n ++ rest)
      = .ok ((n : Int), (write_var_int_nat n).length) := by
  have h35 : n < 128 ^ 5 := lt_trans hn (by norm_num)
  have h := readVarIntCore_roundtrip 4 n h35 0 0 rest
  have h32 : n < 2 ^ 32 := lt_trans hn (by norm_num)
  have hmod : (0 + n * 2 ^ 0) % 2 ^ 32 = n := by
    simpa using Nat.mod_eq_of_lt h32
  unfold read_var_int write_var_int_nat
  rw [show (4 + 1 : Nat) = 5 from rfl] at h
  rw [h, hmod]
  simp [hn]
  omega

theorem writeVarIntCore_take_cont (fuel : Nat) :
    ∀ u k, k < (writeVarIntCore u fuel).length →
      ∀ b ∈ (writeVarIntCore u fuel).take k, 128 ≤ b := by
  induction fuel with
  | zero => intro u k hk; simp [writeVarIntCore] at hk
  | succ f ih =>
    intro u k hk
    rw [writeVarIntCore_succ] at hk ⊢
    by_cases h : u < 128
    · rw [if_pos h] at hk ⊢
      simp at hk
      subst hk
      simp
    · rw [if_neg h] at hk ⊢
      simp only [List.length_cons] at hk
      match k with
      | 0 => simp
      | j + 1 =>
        simp only [List.take_succ_cons, List.mem_cons]
        rintro b (rfl | hb)
        · omega
        · exact ih (u / 128) j (by omega) b hb

theorem readVarIntCore_eof (l : List Nat) :
    (∀ b ∈ l, 128 ≤ b) → ∀ acc shift fuel, l.length < fuel →
      readVarIntCore l acc shift fuel = .error .eof := by
  induction l with
  | nil =>
    intro _ acc shift fuel hf
    match fuel with
    | f + 1 => rfl
  | cons b bs ih =>
    intro hall acc shift fuel hf
    match fuel with
    | f + 1 =>
      have hb : ¬ (b < 128) := by
        have := hall b (by simp)
        omega
      have hrec := ih (fun x hx => hall x (by simp [hx])) (acc + b % 128 * 2 ^ shift)
        (shift + 7) f (by simpa using Nat.lt_of_succ_lt_succ hf)
      rw [readVarIntCore_cons, if_neg hb, hrec]

theorem read_var_int_take (n k : Nat) (hk : k < (write_var_int_nat n).length) :
    read_var_int ((write_var_int_nat n).take k) = .error .eof := by
  have hcont : ∀ b ∈ (write_var_int_nat n).take k, 128 ≤ b :=
    writeVarIntCore_take_cont 5 n k hk
  have hlen5 : (write_var_int_nat n).length ≤ 5 := writeVarIntCore_length_le 5 n
  have hlen : ((write_var_int_nat n).take k).length < 5 := by
    rw [List.length_take]
    omega
  unfold read_var_int
  rw [readVarIntCore_eof _ hcont 0 0 5 hlen]

/-- C2: the claim says decode_mc_string returns InvalidFormat (and does not
panic) whenever fewer than n bytes remain after the length prefix.  The code
instead panics there: on the buffer [0x05] the decoded length is 5 with 0
bytes remaining, and the slice expression bytes[..5] panics with an
out-of-range index instead of producing McStringError::InvalidFormat. -/
theorem c2_decode_mc_string_short_panics : decode_mc_string [5] = .panic := by rfl

/-- C7: for every valid UTF-8 byte string s of byte length at most 2^31 - 1,
decoding the encoding of s yields s back and advances the cursor by exactly
the length of the encoded byte sequence. -/
theorem c7_mc_string_roundtrip (s : List Nat) (h1 : utf8Valid s = true)
    (h2 : s.length ≤ 2 ^ 31 - 1) :
    ∀ out, encode_mc_string s = .ok out →
      decode_mc_string out = .ok s out.length := by
  intro out hout
  have hlen : s.length < 2 ^ 31 := by omega
  unfold encode_mc_string at hout
  rw [if_pos h2] at hout
  simp only [Except.ok.injEq] at hout
  subst hout
  unfold decode_mc_string
  rw [read_var_int_of_write s.length hlen s]
  have h0 : ¬ ((s.length : Int) < 0) := not_lt.mpr (Int.natCast_nonneg _)
  simp only [h0, if_false, Int.toNat_natCast, List.drop_left, lt_self_iff_false,
    List.take_length, h1, if_true, List.length_append]

/-- Witness for C7 at the two-byte string [104, 105] ("hi"). -/
theorem c7_mc_string_roundtrip_witness :
    utf8Valid [104, 105] = true ∧
      decode_mc_string [2, 104, 105] = .ok [104, 105] 3 := by
  refine ⟨by decide, ?_⟩
  have h := c7_mc_string_roundtrip [104, 105] (by decide) (by decide) [2, 104, 105] (by rfl)
  simpa using h

/-- Frame from src/protocol.rs lines 148-166 and src/protocol/frame.rs lines
34-52 (the two revisions declare the same variants).  VarInt fields are i32
values, the port is a u16, ping payloads are i64, strings are byte lists. -/
inductive Frame
  | handshake (protocol : Int) (address : List Nat) (port : Nat) (state : Int)
  | statusRequest
  | statusResponse (json : List Nat)
  | pingRequest (payload : Int)
  | pingResponse (payload : Int)
deriving DecidableEq

/-- ServerState from src/protocol.rs lines 170-175. -/
inductive ServerState
  | handshake
  | status
deriving DecidableEq

/-- FrameError: the constructors shared by the two revisions
(src/protocol.rs lines 77-102 names the id error InvalidFrame,
src/protocol/frame.rs lines 11-30 names it InvalidFrameId). -/
inductive FrameError
  | incomplete
  | io
  | invalidLength
  | invalidFrameId (id : Int)
  | stringDecodeFailed (e : McStringError)
deriving DecidableEq

/-- Result of parsing a frame body: the frame and the final cursor position,
an error, or a panic. -/
inductive ParseOutcome
  | ok (f : Frame) (pos : Nat)
  | err (e : FrameError)
  | panic
deriving DecidableEq

/-- bytes::Buf::get_u16 on a cursor at position pos of buf: big-endian, and
a panic (modelled as none) when fewer than 2 bytes remain. -/
def get_u16 (buf : List Nat) (pos : Nat) : Option (Nat × Nat) :=
  if pos + 2 ≤ buf.length then
    some (((buf.drop pos).take 2).foldl (fun a b => a * 256 + b % 256) 0, pos + 2)
  else none

/-- bytes::Buf::get_i64 on a cursor at position pos of buf: 8 bytes
big-endian read as a two's-complement i64, and a panic (modelled as none)
when fewer than 8 bytes remain. -/
def get_i64 (buf : List Nat) (pos : Nat) : Option (Int × Nat) :=
  if pos + 8 ≤ buf.length then
    let u : Nat := ((buf.drop pos).take 8).foldl (fun a b => a * 256 + b % 256) 0
    some (if u < 2 ^ 63 then (u : Int) else (u : Int) - 2 ^ 64, pos + 8)
  else none

/-- Frame::check of the later revision (src/protocol/frame.rs lines 76-98):
reads the length VarInt, fails InvalidLength when it is negative, succeeds
exactly when the buffer holds the whole frame, returning the cursor position
just past the length prefix; any failure to read the VarInt and any too-short
buffer is Incomplete. -/
def ProtocolFrame.check (buf : List Nat) : Except FrameError Nat :=
  match read_var_int buf with
  | .error _ => .error .incomplete
  | .ok (v, h) =>
    if v < 0 then .error .invalidLength
    else if h + v.toNat ≤ buf.length then .ok h
    else .error .incomplete

/-- Frame::parse of the later revision (src/protocol/frame.rs lines
106-157): reads the id VarInt at the given cursor position and dispatches on
(id, direction); none is the client direction.  decode_mc_string advances
the cursor here. -/
def ProtocolFrame.parse (buf : List Nat) (pos : Nat) (st : Option ServerState) : ParseOutcome :=
  match read_var_int (buf.drop pos) with
  | .error _ => .err .io
  | .ok (id, c) =>
    let p := pos + c
    match st with
    | some .handshake =>
      if id = 0 then
        match read_var_int (buf.drop p) with
        | .error _ => .err .io
        | .ok (protocol, c2) =>
          match decode_mc_string (buf.drop (p + c2)) with
          | .panic => .panic
          | .err e => .err (.stringDecodeFailed e)
          | .ok addr ca =>
            match get_u16 buf (p + c2 + ca) with
            | none => .panic
            | some (port, p3) =>
              match read_var_int (buf.drop p3) with
              | .error _ => .err .io
              | .ok (state, c4) => .ok (.handshake protocol addr port state) (p3 + c4)
      else .err (.invalidFrameId id)
    | some .status =>
      if id = 0 then .ok .statusRequest p
      else if id = 1 then
        match get_i64 buf p with
        | none => .panic
        | some (payload, p2) => .ok (.pingRequest payload) p2
      else .err (.invalidFrameId id)
    | none =>
      if id = 0 then
        match decode_mc_string (buf.drop p) with
        | .panic => .panic
        | .err e => .err (.stringDecodeFailed e)
        | .ok json cj => .ok (.statusResponse json) (p + cj)
      else if id = 1 then
        match get_i64 buf p with
        | none => .panic
        | some (payload, p2) => .ok (.pingResponse payload) p2
      else .err (.invalidFrameId id)

/-- Frame::check of the historical revision (src/protocol.rs lines 188-212):
same readiness test, but returns total_len - 1 -- the header length plus the
declared remaining length, minus one.  The pair is (returned length, cursor
position after the length prefix). -/
def Protocol.check (buf : List Nat) : Except FrameError (Nat × Nat) :=
  match read_var_int buf with
  | .error _ => .error .incomplete
  | .ok (v, h) =>
    if v < 0 then .error .invalidLength
    else if h + v.toNat ≤ buf.length then .ok (h + v.toNat - 1, h)
    else .error .incomplete

/-- Frame::parse of the historical revision (src/protocol.rs lines 221-277).
It differs from the later revision in the handshake branch only: there
decode_mc_string is applied to the chunk slice src.chunk() so the cursor is
not advanced past the string (the following get_u16 reads from the position
right after the protocol VarInt). -/
def Protocol.parse (buf : List Nat) (pos : Nat) (st : Option ServerState) : ParseOutcome :=
  match read_var_int (buf.drop pos) with
  | .error _ => .err .io
  | .ok (id, c) =>
    let p := pos + c
    match st with
    | some .handshake =>
      if id = 0 then
        match read_var_int (buf.drop p) with
        | .error _ => .err .io
        | .ok (protocol, c2) =>
          match decode_mc_string (buf.drop (p + c2)) with
          | .panic => .panic
          | .err e => .err (.stringDecodeFailed e)
          | .ok addr _ =>
            match get_u16 buf (p + c2) with
            | none => .panic
            | some (port, p3) =>
              match read_var_int (buf.drop p3) with
              | .error _ => .err .io
              | .ok (state, c4) => .ok (.handshake protocol addr port state) (p3 + c4)
      else .err (.invalidFrameId id)
    | some .status =>
      if id = 0 then .ok .statusRequest p
      else if id = 1 then
        match get_i64 buf p with
        | none => .panic
        | some (payload, p2) => .ok (.pingRequest payload) p2
      else .err (.invalidFrameId id)
    | none =>
      if id = 0 then
        match decode_mc_string (buf.drop p) with
        | .panic => .panic
        | .err e => .err (.stringDecodeFailed e)
        | .ok json cj => .ok (.statusResponse json) (p + cj)
      else if id = 1 then
        match get_i64 buf p with
        | none => .panic
        | some (payload, p2) => .ok (.pingResponse payload) p2
      else .err (.invalidFrameId id)

/-- ProtocolError from src/protocol.rs lines 33-67 (data-free fields
elided). -/
inductive ProtocolError
  | io
  | dnsLookupFailed
  | stringEncodeFailed (e : McStringError)
  | packetTooLong
  | connectionClosed
  | parseFailed (e : FrameError)
deriving DecidableEq

/-- Result of SlpProtocol::write_frame's serialisation. -/
inductive WriteOutcome
  | ok (packet : List Nat)
  | err (e : ProtocolError)
  | panic
deriving DecidableEq

/-- Result of SlpProtocol::parse_frame: an optional frame together with the
inbound buffer it leaves behind, an error, or a panic. -/
inductive ParseFrameOutcome
  | ok (f : Option Frame) (buffer : List Nat)
  | err (e : ProtocolError)
  | panic
deriving DecidableEq

/-- Result of SlpProtocol::read_frame; pending is a read that never
resolves (the model ran out of socket chunks). -/
inductive ReadOutcome
  | ok (f : Option Frame)
  | err (e : ProtocolError)
  | panic
  | pending
deriving DecidableEq

/-- Big-endian bytes of a u16. -/
def u16_be (p : Nat) : List Nat :=
  [p / 256 % 256, p % 256]

/-- Big-endian bytes of an i64 via its unsigned 64-bit two's-complement
form. -/
def i64_be (v : Int) : List Nat :=
  let u := (v % 2 ^ 64).toNat
  [u / 2 ^ 56 % 256, u / 2 ^ 48 % 256, u / 2 ^ 40 % 256, u / 2 ^ 32 % 256,
   u / 2 ^ 24 % 256, u / 2 ^ 16 % 256, u / 2 ^ 8 % 256, u % 256]

/-- The packet body assembled by SlpProtocol::write_frame (src/protocol.rs
lines 309-344): the id VarInt followed by the variant's fields. -/
def packet_data : Frame → Except McStringError (List Nat)
  | .handshake protocol address port state => do
    let a ← encode_mc_string address
    pure (write_var_int 0 ++ write_var_int protocol ++ a ++ u16_be port ++ write_var_int state)
  | .statusRequest => pure (write_var_int 0)
  | .statusResponse json => do
    let j ← encode_mc_string json
    pure (write_var_int 0 ++ j)
  | .pingRequest payload => pure (write_var_int 1 ++ i64_be payload)
  | .pingResponse payload => pure (write_var_int 1 ++ i64_be payload)

/-- SlpProtocol::write_frame (src/protocol.rs lines 306-360): serialise the
packet body, then prepend its length as a VarInt.  The length conversion
i32::try_from(packet_data.len()).unwrap() panics when the body is longer
than i32::MAX; string encoding failures surface as StringEncodeFailed. -/
def SlpProtocol.write_frame (f : Frame) : WriteOutcome :=
  match packet_data f with
  | .error e => .err (.stringEncodeFailed e)
  | .ok pd =>
    if pd.length ≤ 2 ^ 31 - 1 then .ok (write_var_int_nat pd.length ++ pd)
    else .panic

/-- SlpProtocol::parse_frame (src/protocol.rs lines 405-431): run the
historical Frame::check over the buffer; on success compute header_len as
the cursor position minus one, parse, then discard header_len + len bytes
(BytesMut::advance, which panics past the end of the buffer); on Incomplete
return no frame and leave the buffer untouched. -/
def SlpProtocol.parse_frame (buffer : List Nat) (st : Option ServerState) : ParseFrameOutcome :=
  match Protocol.check buffer with
  | .ok (len, pos) =>
    let header_len := pos - 1
    match Protocol.parse buffer pos st with
    | .ok f _ =>
      if buffer.length < header_len + len then .panic
      else .ok (some f) (buffer.drop (header_len + len))
    | .err e => .err (.parseFailed e)
    | .panic => .panic
  | .error .incomplete => .ok none buffer
  | .error e => .err (.parseFailed e)

/-- SlpProtocol::read_frame (src/protocol.rs lines 367-398): try
parse_frame; deliver a parsed frame; otherwise read the next socket chunk
into the buffer.  A zero-length read (an empty chunk) means the peer
closed: clean EOF (none) when the buffer is empty, ConnectionClosed when it
is not.  When the model runs out of chunks the read is pending. -/
def SlpProtocol.read_frame (st : Option ServerState) : List (List Nat) → List Nat → ReadOutcome
  | chunks, buffer =>
    match SlpProtocol.parse_frame buffer st with
    | .ok (some f) _ => .ok (some f)
    | .err e => .err e
    | .panic => .panic
    | .ok none _ =>
      match chunks with
      | [] => .pending
      | c :: rest =>
        if c.isEmpty then
          if buffer.isEmpty then .ok none else .err .connectionClosed
        else SlpProtocol.read_frame st rest (buffer ++ c)

/-- C1: the claim says a successful parse_frame discards exactly
bytesOfLen + len bytes.  On the two-byte inbound buffer [0x01, 0x00] (a
complete StatusRequest frame: one-byte length prefix declaring 1, one-byte
body) parse_frame succeeds but discards only header_len + check-result
= 0 + 1 = 1 byte, leaving the frame's last byte [0x00] in the buffer,
instead of the bytesOfLen + len = 1 + 1 = 2 bytes the claim requires. -/
theorem c1_parse_frame_discard_eval :
    SlpProtocol.parse_frame [1, 0] (some .status)
      = .ok (some .statusRequest) [0] := by rfl

/-- C3: the claim says a frame passing Frame::check whose payload is
shorter than its variant's fields fails with Incomplete rather than
panicking.  The buffer [0x01, 0x01] passes check (declared length 1, total
2), identifies a PingResponse in the client direction, and then
bytes::Buf::get_i64 panics because 0 bytes remain instead of 8 -- the code
panics rather than returning Incomplete. -/
theorem c3_parse_short_payload_eval :
    ProtocolFrame.check [1, 1] = .ok 1 ∧ ProtocolFrame.parse [1, 1] 1 none = .panic :=
  ⟨rfl, rfl⟩

/-- C6: when the socket read returns zero bytes while no complete frame is
buffered, read_frame returns a clean EOF (none) on an empty inbound buffer
and fails with ConnectionClosed on a non-empty one. -/
theorem c6_read_frame_eof (buffer : List Nat) (st : Option ServerState)
    (chunks : List (List Nat))
    (h : SlpProtocol.parse_frame buffer st = .ok none buffer) :
    SlpProtocol.read_frame st ([] :: chunks) buffer
      = if buffer.isEmpty then .ok none else .err .connectionClosed := by
  simp only [SlpProtocol.read_frame, h, List.isEmpty_nil, if_true]

/-- Witness for C6 at the one-byte (incomplete) buffer [0x05] with a
zero-length read: the mid-frame close surfaces as ConnectionClosed. -/
theorem c6_read_frame_eof_witness :
    SlpProtocol.read_frame none [[]] [5] = .err .connectionClosed := by
  have h := c6_read_frame_eof [5] none [] (by rfl)
  simpa using h

theorem read_var_int_take_small (L : Nat) (pd : List Nat) (k : Nat)
    (hk : k < (write_var_int_nat L).length) :
    read_var_int ((write_var_int_nat L ++ pd).take k) = .error .eof := by
  rw [List.take_append_eq_append_take]
  have h0 : k - (write_var_int_nat L).length = 0 := by omega
  rw [h0, List.take_zero, List.append_nil]
  exact read_var_int_take L k hk

theorem checks_incomplete_of_strict_take (pd : List Nat) (hL : pd.length < 2 ^ 31)
    (k : Nat) (hk : k < (write_var_int_nat pd.length ++ pd).length) :
    ProtocolFrame.check ((write_var_int_nat pd.length ++ pd).take k) = .error .incomplete ∧
      Protocol.check ((write_var_int_nat pd.length ++ pd).take k) = .error .incomplete := by
  by_cases hkW : k < (write_var_int_nat pd.length).length
  · have he := read_var_int_take_small pd.length pd k hkW
    exact ⟨by simp only [ProtocolFrame.check, he], by simp only [Protocol.check, he]⟩
  · push_neg at hkW
    have htake : (write_var_int_nat pd.length ++ pd).take k
        = write_var_int_nat pd.length ++ pd.take (k - (write_var_int_nat pd.length).length) := by
      rw [List.take_append_eq_append_take, List.take_of_length_le hkW]
    have hrv : read_var_int ((write_var_int_nat pd.length ++ pd).take k)
        = .ok ((pd.length : Int), (write_var_int_nat pd.length).length) := by
      rw [htake]
      exact read_var_int_of_write pd.length hL _
    have happ : (write_var_int_nat pd.length ++ pd).length
        = (write_var_int_nat pd.length).length + pd.length := List.length_append _ _
    have hlen : ((write_var_int_nat pd.length ++ pd).take k).length = k := by
      rw [List.length_take]
      omega
    have hcond : ¬ ((write_var_int_nat pd.length).length + ((pd.length : Int)).toNat
        ≤ ((write_var_int_nat pd.length ++ pd).take k).length) := by
      rw [hlen, Int.toNat_natCast]
      omega
    have hneg : ¬ ((pd.length : Int) < 0) := not_lt.mpr (Int.natCast_nonneg _)
    constructor
    · simp only [ProtocolFrame.check, hrv, hneg, if_false, hcond]
    · simp only [Protocol.check, hrv, hneg, if_false, hcond]

/-- C8: for every frame that write_frame serialises successfully, every
strict prefix of the serialised bytes fails Frame::check (both revisions)
with Incomplete, and parse_frame consumes nothing: it returns no frame and
leaves the inbound buffer unchanged. -/
theorem c8_strict_take_incomplete (f : Frame) (bytes : List Nat)
    (hw : SlpProtocol.write_frame f = .ok bytes) (k : Nat) (hk : k < bytes.length)
    (st : Option ServerState) :
    ProtocolFrame.check (bytes.take k) = .error .incomplete ∧
      SlpProtocol.parse_frame (bytes.take k) st = .ok none (bytes.take k) := by
  unfold SlpProtocol.write_frame at hw
  cases hpd : packet_data f with
  | error e => rw [hpd] at hw; simp at hw
  | ok pd =>
    rw [hpd] at hw
    by_cases hlen : pd.length ≤ 2 ^ 31 - 1
    · simp only [hlen, if_true, WriteOutcome.ok.injEq] at hw
      subst hw
      have hL : pd.length < 2 ^ 31 := by omega
      have hc := checks_incomplete_of_strict_take pd hL k hk
      exact ⟨hc.1, by simp only [SlpProtocol.parse_frame, hc.2]⟩
    · simp only [hlen, if_false] at hw
      exact absurd hw (by simp)

/-- Witness for C8: the StatusRequest frame serialises to [0x01, 0x00]; its
one-byte strict prefix [0x01] is Incomplete and parse_frame leaves it
untouched. -/
theorem c8_strict_take_incomplete_witness :
    ProtocolFrame.check [1] = .error .incomplete ∧
      SlpProtocol.parse_frame [1] none = .ok none [1] := by
  have h := c8_strict_take_incomplete .statusRequest [1, 0] (by rfl) 1 (by norm_num) none
  simpa using h

theorem write_frame_no_packet_too_long (f : Frame) :
    SlpProtocol.write_frame f ≠ .err .packetTooLong := by
  unfold SlpProtocol.write_frame
  cases hpd : packet_data f with
  | error e => simp
  | ok pd => split <;> try simp
             split <;> simp

theorem parse_frame_no_packet_too_long (buffer : List Nat) (st : Option ServerState) :
    SlpProtocol.parse_frame buffer st ≠ .err .packetTooLong := by
  unfold SlpProtocol.parse_frame
  cases hc : Protocol.check buffer with
  | ok lp =>
    obtain ⟨len, pos⟩ := lp
    cases hp : Protocol.parse buffer pos st with
    | ok fr q => by_cases h : buffer.length < pos - 1 + len <;> simp [hp, h]
    | err e => simp [hp]
    | panic => simp [hp]
  | error e => cases e <;> simp

theorem read_frame_no_packet_too_long (st : Option ServerState) :
    ∀ chunks buffer, SlpProtocol.read_frame st chunks buffer ≠ .err .packetTooLong := by
  intro chunks
  induction chunks with
  | nil =>
    intro buffer
    simp only [SlpProtocol.read_frame]
    cases hp : SlpProtocol.parse_frame buffer st with
    | ok of b =>
      cases of with
      | some f => simp
      | none => simp
    | err e =>
      have h := parse_frame_no_packet_too_long buffer st
      rw [hp] at h
      simp only [ne_eq, ParseFrameOutcome.err.injEq] at h
      simp [h]
    | panic => simp
  | cons c rest ih =>
    intro buffer
    simp only [SlpProtocol.read_frame]
    cases hp : SlpProtocol.parse_frame buffer st with
    | ok of b =>
      cases of with
      | some f => simp
      | none =>
        by_cases hc : c.isEmpty
        · by_cases hb : buffer.isEmpty <;> simp [hc, hb]
        · simp only [hc, if_false]
          exact ih (buffer ++ c)
    | err e =>
      have h := parse_frame_no_packet_too_long buffer st
      rw [hp] at h
      simp only [ne_eq, ParseFrameOutcome.err.injEq] at h
      simp [h]
    | panic => simp

/-- C10: for every frame whose serialised packet body exceeds i32::MAX
bytes, write_frame panics on the unchecked i32 conversion of the body
length rather than returning an error, and the PacketTooLong error variant
is never produced by write_frame, parse_frame or read_frame. -/
theorem c10_packet_too_long_unreachable :
    (∀ f pd, packet_data f = .ok pd → 2 ^ 31 - 1 < pd.length →
        SlpProtocol.write_frame f = .panic) ∧
      (∀ f, SlpProtocol.write_frame f ≠ .err .packetTooLong) ∧
      (∀ buffer st, SlpProtocol.parse_frame buffer st ≠ .err .packetTooLong) ∧
      (∀ st chunks buffer, SlpProtocol.read_frame st chunks buffer ≠ .err .packetTooLong) := by
  refine ⟨?_, fun f => write_frame_no_packet_too_long f,
    fun buffer st => parse_frame_no_packet_too_long buffer st,
    fun st chunks buffer => read_frame_no_packet_too_long st chunks buffer⟩
  intro f pd hpd hlen
  simp only [SlpProtocol.write_frame, hpd]
  rw [if_neg (by omega)]

/-- Witness for C10 at a StatusResponse whose json string is 2^31 - 1
bytes: the string itself still encodes, but the packet body (id byte plus
five length-prefix bytes plus the string) exceeds i32::MAX, so write_frame
panics. -/
theorem c10_packet_too_long_unreachable_witness :
    SlpProtocol.write_frame (.statusResponse (List.replicate (2 ^ 31 - 1) 97)) = .panic := by
  have h1 : packet_data (.statusResponse (List.replicate (2 ^ 31 - 1) 97))
      = .ok (write_var_int 0 ++ (write_var_int_nat (2 ^ 31 - 1) ++ List.replicate (2 ^ 31 - 1) 97)) := by
    simp only [packet_data, encode_mc_string, List.length_replicate]
    rw [if_pos (le_refl _)]
    rfl
  have h5 : (write_var_int_nat (2 ^ 31 - 1)).length = 5 := by rfl
  have hid : (write_var_int 0).length = 1 := by rfl
  have h2 : 2 ^ 31 - 1 < (write_var_int 0
      ++ (write_var_int_nat (2 ^ 31 - 1) ++ List.replicate (2 ^ 31 - 1) 97)).length := by
    simp only [List.length_append, List.length_replicate, h5, hid]
    omega
  exact c10_packet_too_long_unreachable.1 _ _ h1 h2

/-- MAGIC from src/bedrock.rs line 127. -/
def MAGIC : Nat := 0x00ffff00fefefefefdfdfdfd12345678

/-- Big-endian unsigned value of a byte list. -/
def be_to_nat (l : List Nat) : Nat :=
  l.foldl (fun a b => a * 256 + b % 256) 0

/-- Outcome of PingResponseFrame::from_bytes; rejected models the None the
source returns for a discarded datagram. -/
inductive BedrockOutcome
  | ok (time : Int) (motd : List Nat)
  | rejected
  | panic
deriving DecidableEq

/-- PingResponseFrame::from_bytes (src/bedrock.rs lines 156-181).  SIZE is
the source's constant 8 + 8 + 16 + 2 = 34, which omits the packet-id byte;
after the id (1), time (8), guid (8) and magic (16) reads 33 bytes are
consumed, so on a 34-byte datagram the get_u16 for the MOTD length panics
with only 1 byte remaining.  read_exact fails (rejected) when fewer than
motd_len bytes remain; invalid UTF-8 is rejected. -/
def PingResponseFrame.from_bytes (bytes : List Nat) : BedrockOutcome :=
  if bytes.length < 34 then .rejected
  else if bytes.headD 0 ≠ 28 then .rejected
  else
    let tu : Nat := be_to_nat ((bytes.drop 1).take 8)
    let time : Int := if tu < 2 ^ 63 then (tu : Int) else (tu : Int) - 2 ^ 64
    let magic := be_to_nat ((bytes.drop 17).take 16)
    if magic ≠ MAGIC then .rejected
    else if bytes.length < 35 then .panic
    else
      let motd_len := be_to_nat ((bytes.drop 33).take 2)
      if (bytes.drop 35).length < motd_len then .rejected
      else
        let motd := (bytes.drop 35).take motd_len
        if utf8Valid motd then .ok time motd else .rejected

/-- The 16 big-endian bytes of MAGIC. -/
def magic_bytes : List Nat :=
  [0, 255, 255, 0, 254, 254, 254, 254, 253, 253, 253, 253, 18, 52, 86, 120]

/-- C4: the claim says a datagram is accepted only with length at least 35
and that every datagram failing validation is discarded silently without
panicking.  The source's SIZE constant is 34 (it omits the packet-id byte),
so the 34-byte datagram below -- correct id 0x1C and correct magic --
passes the length precheck and then panics in bytes::Buf::get_u16 when
reading the MOTD length with a single byte remaining, instead of being
silently discarded. -/
theorem c4_from_bytes_34_panics :
    PingResponseFrame.from_bytes (28 :: (List.replicate 16 0 ++ (magic_bytes ++ [0])))
      = .panic := by decide

/-- Splitting a character list at semicolons, as Rust's str::split with a
char pattern does: empty pieces are kept, n separators yield n+1 pieces. -/
def splitSemis : List Char → List (List Char)
  | [] => [[]]
  | c :: rest =>
    if c = ';' then [] :: splitSemis rest
    else
      match splitSemis rest with
      | g :: gs => (c :: g) :: gs
      | [] => [[c]]

/-- Digit-accumulation loop of Rust's unsigned FromStr. -/
def parseDigits : List Char → Nat → Option Nat
  | [], acc => some acc
  | c :: cs, acc =>
    if '0' ≤ c ∧ c ≤ '9' then parseDigits cs (acc * 10 + (c.toNat - 48))
    else none

/-- Rust's u{bits}::from_str: an optional leading plus sign, then one or
more ascii digits, rejecting values outside the type's range. -/
def parse_uint (bits : Nat) (s : List Char) : Option Nat :=
  let t : List Char :=
    match s with
    | '+' :: rest => rest
    | _ => s
  match t with
  | [] => none
  | _ :: _ =>
    match parseDigits t 0 with
    | none => none
    | some v => if v < 2 ^ bits then some v else none

/-- BedrockServerInfo from src/bedrock.rs lines 15-32 (strings as character
lists). -/
structure BedrockServerInfo where
  edition : List Char
  name : List Char
  protocol_version : Nat
  mc_version : List Char
  online_players : Nat
  max_players : Nat
  server_id : Option Nat
  map_name : Option (List Char)
  game_mode : Option (List Char)
  numeric_game_mode : Option Nat
  ipv4_port : Option Nat
  ipv6_port : Option Nat
  extra : List (List Char)
deriving DecidableEq

/-- BedrockServerInfo::from_str (src/bedrock.rs lines 59-84): split the MOTD
on semicolons; the first six components are required (three of them parsed
as u32, failing the whole parse when unparseable); the next six are
optional (server_id and numeric_game_mode parsed as u64, the ports as u16,
parse failures map the field to none); remaining components land in
extra. -/
def BedrockServerInfo.from_str (s : String) : Option BedrockServerInfo :=
  match splitSemis s.toList with
  | edition :: name :: pv :: mcv :: onl :: mx :: rest => do
    let pvn ← parse_uint 32 pv
    let onn ← parse_uint 32 onl
    let mxn ← parse_uint 32 mx
    some { edition := edition, name := name, protocol_version := pvn, mc_version := mcv,
           online_players := onn, max_players := mxn,
           server_id := (rest.get? 0).bind (parse_uint 64),
           map_name := rest.get? 1,
           game_mode := rest.get? 2,
           numeric_game_mode := (rest.get? 3).bind (parse_uint 64),
           ipv4_port := (rest.get? 4).bind (parse_uint 16),
           ipv6_port := (rest.get? 5).bind (parse_uint 16),
           extra := rest.drop 6 }
  | _ => none

/-- C9: the sample Bedrock MOTD parses to exactly the structure the claim
lists, with an empty extra list. -/
theorem c9_bedrock_motd_eval :
    BedrockServerInfo.from_str
        ("MCPE;Dedicated Server;390;1.14.60;0;10;13253860892328930865;Bedrock level;Survival;1;19132;19133")
      = some { edition := ("MCPE").toList, name := ("Dedicated Server").toList,
               protocol_version := 390, mc_version := ("1.14.60").toList,
               online_players := 0, max_players := 10,
               server_id := some 13253860892328930865,
               map_name := some (("Bedrock level").toList),
               game_mode := some (("Survival").toList),
               numeric_game_mode := some 1,
               ipv4_port := some 19132, ipv6_port := some 19133,
               extra := [] } := by decide

/-- Result of the select in ping_or_timeout. -/
inductive SelectResult (α : Type)
  | pingResult (a : α)
  | timeout
  | pending
deriving DecidableEq

/-- The select of ping_or_timeout (src/lib.rs lines 123-136) under tokio's
biased mode: arms are polled in source order -- the ping arm first, then
the sleep -- and the first ready arm wins.  The model takes the readiness
of each arm at the poll and the ping's result. -/
def ping_or_timeout_select {α : Type} (pingReady : Bool) (sleepReady : Bool)
    (pingValue : α) : SelectResult α :=
  if pingReady then .pingResult pingValue
  else if sleepReady then .timeout
  else .pending

/-- C5 counterexample: the claim says the deadline arm is biased to win
ties, so a poll with both arms ready must yield Timeout.  The source lists
the ping arm first in the biased select, so a tie yields the ping's result
and not Timeout. -/
theorem c5_tie_counterexample :
    ping_or_timeout_select true true 0 ≠ (SelectResult.timeout : SelectResult Nat) := by
  decide

/-- C5 amended: ping_or_timeout races the ping against a sleep of the given
duration with the ping arm polled first: when both are ready at the same
poll the result is the ping's result; Timeout occurs exactly when the sleep
is ready and the ping is not. -/
theorem c5_ping_arm_biased {α : Type} (v : α) :
    ping_or_timeout_select true true v = .pingResult v ∧
      ping_or_timeout_select false true v = .timeout ∧
      ping_or_timeout_select true false v = .pingResult v ∧
      ping_or_timeout_select false false v = .pending :=
  ⟨rfl, rfl, rfl, rfl⟩
